import Mathlib

/-!
Verification development for the ASCII Oracle terminal command pipeline.

The definitions below are a shallow embedding of the TypeScript sources:
  * `frontend/src/utils/commandParser.ts` — `tokenize`, `parseCommand`,
    `isValidCommand`;
  * the command executor module (`executeCommand`, `executeHelp`,
    `executeDraw`, `executeUpload`, `executeHologram`, `executeSolve`,
    `executeChemistry`, `executeSearch`);
  * the math evaluator of the Terminal component (`evaluateMath`), periodic
    table (`ELEMENTS`), `calcMolarMass`, and its chemistry sub-command.

Modelling conventions:
  * JavaScript strings are modelled by Lean `String` and all operations are
    implemented explicitly over the underlying character list, so every
    definition evaluates by kernel reduction.  Inputs of interest are ASCII,
    where JS UTF-16 semantics and Lean codepoint semantics agree.
  * A JS `Record` built by repeated `rec[key] = value` assignments is
    modelled as the list of assignments in program order; lookup
    (`recordGet`) returns the last binding of a key, matching overwrite
    semantics.
  * JS numbers used by the chemistry table are modelled as rationals; the
    masses involved are exact decimal literals.
  * Dynamic code evaluation (the `Function(...)` calls of the two math
    evaluators) cannot be embedded; it is abstracted as an explicit
    argument `ev : String → Option String` (`none` models a thrown
    exception, `some s` models a value whose final printed form is `s`).
    Likewise network access (`fetch`) is abstracted in `ExtDeps`.
-/

/-! ## Character and string primitives (JS semantics) -/

/-- The double-quote character. -/
def dquoteChar : Char := Char.ofNat 34

/-- The single-quote character. -/
def squoteChar : Char := Char.ofNat 39

/-- JS whitespace (the ASCII part of the `\s` class and of `String.trim`). -/
def jsWsChar (c : Char) : Bool :=
  c == ' ' || c == Char.ofNat 9 || c == Char.ofNat 10 || c == Char.ofNat 13 ||
  c == Char.ofNat 11 || c == Char.ofNat 12

/-- JS `String.prototype.trim`: drop whitespace from both ends. -/
def jsTrim (s : String) : String :=
  String.mk ((((s.data.dropWhile jsWsChar).reverse).dropWhile jsWsChar).reverse)

/-- JS `String.prototype.toLowerCase` (ASCII case mapping). -/
def jsToLower (s : String) : String :=
  String.mk (s.data.map Char.toLower)

/-- JS `String.prototype.startsWith`. -/
def jsStartsWith (s pre : String) : Bool :=
  pre.data.isPrefixOf s.data

/-- JS `String.prototype.includes` for a single character. -/
def jsContainsChar (s : String) (c : Char) : Bool :=
  s.data.contains c

/-- JS `String.prototype.slice(n)` for a non-negative start index. -/
def jsDrop (s : String) (n : Nat) : String :=
  String.mk (s.data.drop n)

/-- JS `String.prototype.length` (for the ASCII inputs of interest). -/
def jsLength (s : String) : Nat :=
  s.data.length

/-- Worker for `jsSplitChar`: accumulates the current segment in order. -/
def splitCharAux (sep : Char) : List Char → List Char → List (List Char)
  | [], cur => [cur]
  | c :: cs, cur =>
    if c == sep then cur :: splitCharAux sep cs []
    else splitCharAux sep cs (cur ++ [c])

/-- JS `String.prototype.split(sep)` for a one-character separator. -/
def jsSplitChar (s : String) (sep : Char) : List String :=
  (splitCharAux sep s.data []).map String.mk

/-! ## Tokenizer (`tokenize` of commandParser.ts) -/

/-- Character loop of `tokenize`: state is the unconsumed input, the
`inQuote` flag, the active quote character (`none` models the empty-string
sentinel), the token buffer `current`, and the tokens emitted so far.
Mirrors the four-way branch of the source loop plus the final flush. -/
def tokenizeAux : List Char → Bool → Option Char → List Char → List (List Char) → List (List Char)
  | [], _, _, current, tokens =>
    if current.isEmpty then tokens else tokens ++ [current]
  | c :: rest, inQuote, quoteChar, current, tokens =>
    if (c == dquoteChar || c == squoteChar) && !inQuote then
      tokenizeAux rest true (some c) current tokens
    else if quoteChar == some c && inQuote then
      tokenizeAux rest false none current tokens
    else if c == ' ' && !inQuote then
      if current.isEmpty then tokenizeAux rest inQuote quoteChar current tokens
      else tokenizeAux rest inQuote quoteChar [] (tokens ++ [current])
    else
      tokenizeAux rest inQuote quoteChar (current ++ [c]) tokens

/-- `tokenize` of commandParser.ts: split on spaces, honouring quotes. -/
def tokenize (input : String) : List String :=
  (tokenizeAux input.data false none [] []).map String.mk

/-! ## Parser (`parseCommand` of commandParser.ts) -/

/-- A flag value: JS stores either a string or the boolean `true`. -/
inductive FlagVal where
  | str (v : String)
  | boolTrue
deriving DecidableEq, Repr

/-- The `ParsedCommand` interface of commandParser.ts.  `flags` is the
list of record assignments in program order (see module comment). -/
structure ParsedCommand where
  command : String
  args : List String
  flags : List (String × FlagVal)
  raw : String
deriving DecidableEq, Repr

/-- Record lookup with JS overwrite semantics: the last binding wins. -/
def recordGet (rec : List (String × FlagVal)) (key : String) : Option FlagVal :=
  (rec.reverse.find? (fun p => p.1 == key)).map (fun p => p.2)

/-- The `while` loop of `parseCommand` over the tokens after the first:
long flags (`--x`, `--x=v`), short flags (`-x`, exactly two characters),
value absorption from a following non-dash token, and positional
arguments. -/
def parseLoop : List String → List String → List (String × FlagVal) →
    List String × List (String × FlagVal)
  | [], args, flags => (args, flags)
  | part :: rest, args, flags =>
    if jsStartsWith part "--" then
      let flagPart := jsDrop part 2
      if jsContainsChar flagPart '=' then
        let segs := jsSplitChar flagPart '='
        parseLoop rest args (flags ++ [(segs.getD 0 "", FlagVal.str (segs.getD 1 ""))])
      else
        match rest with
        | next :: rest2 =>
          if !jsStartsWith next "-" then
            parseLoop rest2 args (flags ++ [(flagPart, FlagVal.str next)])
          else
            parseLoop (next :: rest2) args (flags ++ [(flagPart, FlagVal.boolTrue)])
        | [] => parseLoop [] args (flags ++ [(flagPart, FlagVal.boolTrue)])
    else if jsStartsWith part "-" && jsLength part == 2 then
      let flag := jsDrop part 1
      match rest with
      | next :: rest2 =>
        if !jsStartsWith next "-" then
          parseLoop rest2 args (flags ++ [(flag, FlagVal.str next)])
        else
          parseLoop (next :: rest2) args (flags ++ [(flag, FlagVal.boolTrue)])
      | [] => parseLoop [] args (flags ++ [(flag, FlagVal.boolTrue)])
    else
      parseLoop rest (args ++ [part]) flags

/-- `parseCommand` of commandParser.ts. -/
def parseCommand (input : String) : ParsedCommand :=
  let raw := jsTrim input
  let parts := tokenize raw
  match parts with
  | [] => { command := "", args := [], flags := [], raw := raw }
  | first :: restParts =>
    let res := parseLoop restParts [] []
    { command := jsToLower first, args := res.1, flags := res.2, raw := raw }

/-- The fixed command registry of `isValidCommand`. -/
def validCommands : List String :=
  ["help", "draw", "upload", "hologram", "solve", "physics", "chemistry",
   "search", "clear", "exit", "about", "version"]

/-- `isValidCommand` of commandParser.ts (case-insensitive membership). -/
def isValidCommand (command : String) : Bool :=
  validCommands.contains (jsToLower command)

/-! ## Result contract (`CommandResult` of commandParser.ts) -/

/-- The `type` discriminant of `CommandResult`. -/
inductive RType where
  | info | success | error | warning | ascii | math
deriving DecidableEq, Repr

/-- The media kinds of the `triggerUpload` field. -/
inductive UploadType where
  | image | video
deriving DecidableEq, Repr

/-- The `CommandResult` interface.  Optional fields that the executor
omits are `none`; every result of this executor carries a string
`output`, so that field is plain. -/
structure CommandResult where
  success : Bool
  output : String
  type : RType
  clear : Option Bool := none
  powerUp : Option String := none
  powerUpMessage : Option String := none
  triggerUpload : Option UploadType := none
deriving DecidableEq, Repr

/-! ## External collaborators of the executor

The executor module imports the art library and reaches the network via
`fetch`; the solve fallback calls the JS `Function` constructor.  These
are collaborators outside the command pipeline and are abstracted as an
environment record. -/

/-- One backend search result (the fields the executor reads). -/
structure SearchItem where
  asciiArt : Option String := none
  title : Option String := none
  name : Option String := none
  description : Option String := none
deriving DecidableEq, Repr

/-- External dependencies of the executor.  `solveBackend` models the
`/api/math/solve` call (`none` = request failed or non-ok), `jsEval`
models `Function('"use strict"; return (...)')()` applied to the
sanitized expression (`none` = it threw), `searchApi` models
`/api/search/web`, and the two physics formatters model the
floating-point computation and `toFixed` rendering of
`executePhysics`. -/
structure ExtDeps where
  artLib : List (String × List String)
  solveBackend : String → Option String
  jsEval : String → Option String
  searchApi : String → Option (List SearchItem)
  projectileOut : String → String → String
  freefallOut : String → String

/-- JS `Array.prototype.join`. -/
def joinSep (sep : String) : List String → String
  | [] => ""
  | [x] => x
  | x :: y :: xs => x ++ sep ++ joinSep sep (y :: xs)

/-- Truthiness of a flag value read from the parsed `flags` record. -/
def flagTruthy : Option FlagVal → Bool
  | none => false
  | some FlagVal.boolTrue => true
  | some (FlagVal.str s) => s != ""

/-- Truthiness of an optional string (JS `undefined` and `""` are falsy). -/
def truthyOpt : Option String → Bool
  | none => false
  | some s => s != ""

/-- JS `a || b` over two optional strings, as rendered by a template
literal (`undefined` prints as the string "undefined"). -/
def jsOrStr (a b : Option String) : String :=
  if truthyOpt a then a.getD ""
  else match b with
    | some s => s
    | none => "undefined"

/-! ## Executor handlers (command executor module) -/

/-- The per-topic help texts of `executeHelp`. -/
def helpTexts : List (String × String) :=
  [("draw", "DRAW - Display ASCII art\n\nUsage: draw <name> [--animate] [--list]\n\nExamples:\n  draw cat          Show cat art\n  draw mario        Show Mario art\n  draw --list       List all available art\n\nAvailable: cat, dog, mario, mushroom, star, heart, ghost, skull, tree, rocket"),
   ("upload", "UPLOAD - Convert image to ASCII\n\nUsage: upload image\n\nThis will open a file picker to select an image."),
   ("hologram", "HOLOGRAM - 3D visualizations\n\nUsage: hologram <type>\n\nTypes: cube, sphere, text, particles, wave"),
   ("solve", "SOLVE - Math solver\n\nUsage: solve <expression>\n\nExamples:\n  solve 2+2\n  solve sqrt(16)\n  solve 5*5"),
   ("search", "SEARCH - Search for ASCII art\n\nUsage: search <query>\n\nExamples:\n  search dragon\n  search space ship")]

/-- The no-argument summary text of `executeHelp`. -/
def generalHelpText : String :=
  "ASCII ORACLE - Available Commands\n\n  help [cmd]     Show help\n  draw <name>    Display ASCII art (try: draw cat)\n  draw --list    List all ASCII art\n  upload image   Convert image to ASCII\n  hologram cube  3D visualization\n  solve <expr>   Math calculations\n  search <query> Search ASCII art online\n  clear          Clear screen\n  about          About this app\n  version        Show version\n\nType \"help <command>\" for more details."

/-- `executeHelp`. -/
def executeHelp (args : List String) : CommandResult :=
  match args with
  | a0 :: _ =>
    let cmd := jsToLower a0
    { success := true,
      output := match (helpTexts.find? (fun p => p.1 == cmd)).map Prod.snd with
        | some t => t
        | none => "No help available for: " ++ cmd,
      type := RType.info }
  | [] => { success := true, output := generalHelpText, type := RType.info }

/-- `executeDraw` (over the imported art library). -/
def executeDraw (artLib : List (String × List String)) (args : List String)
    (flags : List (String × FlagVal)) : CommandResult :=
  if flagTruthy (recordGet flags "list") || flagTruthy (recordGet flags "l") then
    let available := artLib.map Prod.fst
    { success := true,
      output := "Available ASCII art (" ++ toString available.length ++ "):\n\n" ++
        joinSep ", " available,
      type := RType.info }
  else
    match args with
    | [] =>
      { success := false,
        output := "Usage: draw <name>\nExample: draw cat\nUse \"draw --list\" to see all available art.",
        type := RType.error }
    | a0 :: _ =>
      let artName := jsToLower a0
      match (artLib.find? (fun p => p.1 == artName)).map Prod.snd with
      | none =>
        let available := joinSep ", " ((artLib.map Prod.fst).take 10)
        { success := false,
          output := "Art \"" ++ artName ++ "\" not found.\n\nAvailable: " ++ available ++
            "...\n\nUse \"draw --list\" for full list.",
          type := RType.error }
      | some artLines =>
        { success := true,
          output := "\n" ++ joinSep "\n" artLines ++ "\n",
          type := RType.ascii,
          powerUp := some "star",
          powerUpMessage := some ("Drew " ++ artName ++ "!") }

/-- `executeUpload`.  `args[0] || "image"` defaults a missing (or empty)
type argument to `"image"`. -/
def executeUpload (args : List String) : CommandResult :=
  let ty := match args with
    | [] => "image"
    | a :: _ => if a == "" then "image" else a
  if ty != "image" && ty != "video" then
    { success := false,
      output := "Usage: upload image\n       upload video",
      type := RType.error }
  else
    { success := true,
      output := "Opening " ++ ty ++ " picker... Select a file to convert to ASCII.",
      type := RType.info,
      triggerUpload := some (if ty == "image" then UploadType.image else UploadType.video) }

/-- `executeHologram`.  The synchronous `context.setHologramData` /
`setHologramMode` calls are host side effects outside this embedding;
the returned result is modelled in full. -/
def executeHologram (args : List String) : CommandResult :=
  let ty := match args with
    | [] => "cube"
    | a :: _ => if a == "" then "cube" else a
  let validTypes := ["cube", "sphere", "text", "particles", "wave", "dna"]
  if !validTypes.contains ty then
    { success := false,
      output := "Invalid hologram type: " ++ ty ++ "\n\nAvailable: " ++
        joinSep ", " validTypes,
      type := RType.error }
  else
    { success := true,
      output := "Entering 3D mode: " ++ ty ++ "\nPress ESC or type \"exit\" to return.",
      type := RType.info,
      powerUp := some "mushroom",
      powerUpMessage := some "3D Mode Activated!" }

/-- Character class kept by the sanitizer of the solve fallback
(`[^0-9+\-*/().sqrt\s]` is removed, so digits, the listed operators and
the letters s, q, r, t survive). -/
def solveKeepChar (c : Char) : Bool :=
  c.isDigit || c == '+' || c == '-' || c == '*' || c == '/' || c == '(' ||
  c == ')' || c == '.' || c == 's' || c == 'q' || c == 'r' || c == 't' ||
  jsWsChar c

/-- `executeSolve`: backend first, then the sanitize-and-eval fallback. -/
def executeSolve (env : ExtDeps) (args : List String) : CommandResult :=
  match args with
  | [] =>
    { success := false,
      output := "Usage: solve <expression>\nExample: solve 2+2",
      type := RType.error }
  | _ :: _ =>
    let expression := joinSep " " args
    match env.solveBackend expression with
    | some result =>
      { success := true,
        output := "Expression: " ++ expression ++ "\nResult: " ++ result,
        type := RType.info }
    | none =>
      let sanitized := String.mk (expression.data.filter solveKeepChar)
      match env.jsEval sanitized with
      | some result =>
        { success := true, output := expression ++ " = " ++ result, type := RType.info }
      | none =>
        { success := false, output := "Could not evaluate: " ++ expression, type := RType.error }

/-- `executePhysics`: the dispatch structure is modelled exactly; the
floating-point formula rendering is delegated to the environment. -/
def executePhysics (env : ExtDeps) (args : List String) : CommandResult :=
  match args with
  | [] =>
    { success := true,
      output := "PHYSICS Calculator\n\nAvailable calculations:\n  physics projectile <velocity> <angle>\n  physics freefall <height>\n  physics momentum <mass> <velocity>\n\nExample: physics projectile 20 45",
      type := RType.info }
  | a0 :: _ =>
    let calcType := jsToLower a0
    if calcType == "projectile" && decide (args.length ≥ 3) then
      { success := true,
        output := env.projectileOut (args.getD 1 "") (args.getD 2 ""),
        type := RType.info }
    else if calcType == "freefall" && decide (args.length ≥ 2) then
      { success := true, output := env.freefallOut (args.getD 1 ""), type := RType.info }
    else
      { success := false,
        output := "Invalid physics calculation. Type \"physics\" for help.",
        type := RType.error }

/-- The inline element database of the executor (strings). -/
def chemElementTexts : List (String × String) :=
  [("h", "Hydrogen (H) - Atomic #1, Mass: 1.008"),
   ("he", "Helium (He) - Atomic #2, Mass: 4.003"),
   ("c", "Carbon (C) - Atomic #6, Mass: 12.011"),
   ("n", "Nitrogen (N) - Atomic #7, Mass: 14.007"),
   ("o", "Oxygen (O) - Atomic #8, Mass: 15.999"),
   ("fe", "Iron (Fe) - Atomic #26, Mass: 55.845"),
   ("au", "Gold (Au) - Atomic #79, Mass: 196.967"),
   ("ag", "Silver (Ag) - Atomic #47, Mass: 107.868")]

/-- `executeChemistry` of the executor module: only the `element`
sub-command is handled; everything else (including `molar`) falls
through to the invalid-command error. -/
def executeChemistry (args : List String) : CommandResult :=
  match args with
  | [] =>
    { success := true,
      output := "CHEMISTRY Tools\n\nAvailable commands:\n  chemistry element <symbol>   Element info\n  chemistry molar <formula>    Molar mass\n\nExample: chemistry element Fe",
      type := RType.info }
  | a0 :: rest =>
    let subCmd := jsToLower a0
    match rest with
    | a1 :: _ =>
      if subCmd == "element" && a1 != "" then
        let el := jsToLower a1
        { success := true,
          output := match (chemElementTexts.find? (fun p => p.1 == el)).map Prod.snd with
            | some t => t
            | none => "Element \"" ++ a1 ++ "\" not in database.",
          type := RType.info }
      else
        { success := false,
          output := "Invalid chemistry command. Type \"chemistry\" for help.",
          type := RType.error }
    | [] =>
      { success := false,
        output := "Invalid chemistry command. Type \"chemistry\" for help.",
        type := RType.error }

/-- Worker for `jsIncludesStr`: does `sub` occur in the list? -/
def infixCharAux (sub : List Char) : List Char → Bool
  | [] => sub.isEmpty
  | c :: cs => sub.isPrefixOf (c :: cs) || infixCharAux sub cs

/-- JS `String.prototype.includes` (substring containment). -/
def jsIncludesStr (s sub : String) : Bool :=
  infixCharAux sub.data s.data

/-- Local-library fallback of `executeSearch`. -/
def searchLocal (artLib : List (String × List String)) (query : String) : CommandResult :=
  let found := (artLib.map Prod.fst).filter (fun name => jsIncludesStr name (jsToLower query))
  match found with
  | f0 :: _ =>
    { success := true,
      output := "Found in local library: " ++ joinSep ", " found ++ "\n\nUse \"draw " ++
        f0 ++ "\" to display.",
      type := RType.info }
  | [] =>
    { success := true,
      output := "No results for \"" ++ query ++ "\". Try \"draw --list\" for local art.",
      type := RType.info }

/-- `executeSearch`: backend first (first result rendered), local library
fallback when the backend is unavailable or returns no results. -/
def executeSearch (env : ExtDeps) (args : List String) : CommandResult :=
  match args with
  | [] =>
    { success := false,
      output := "Usage: search <query>\nExample: search dragon",
      type := RType.error }
  | _ :: _ =>
    let query := joinSep " " args
    match env.searchApi query with
    | some (r :: _) =>
      let artPart := if truthyOpt r.asciiArt then r.asciiArt.getD "" ++ "\n\n" else ""
      let descPart := if truthyOpt r.description then r.description.getD "" else ""
      { success := true,
        output := "Search: \"" ++ query ++ "\"\n\n" ++ artPart ++ "Found: " ++
          jsOrStr r.title r.name ++ "\n" ++ descPart,
        type := RType.info }
    | some [] => searchLocal env.artLib query
    | none => searchLocal env.artLib query

/-- The `about` box of `executeAbout`. -/
def executeAbout : CommandResult :=
  { success := true,
    output := "\n╔═══════════════════════════════════════╗\n║         ASCII ORACLE v1.0.0           ║\n╠═══════════════════════════════════════╣\n║  A retro terminal for ASCII art,      ║\n║  3D visualization, and math/science   ║\n║                                       ║\n║  Built with:                          ║\n║  - React + TypeScript                 ║\n║  - xterm.js                           ║\n║  - Three.js                           ║\n║  - Node.js + Express                  ║\n╚═══════════════════════════════════════╝",
    type := RType.info }

/-- `executeCommand`: blank-command no-op, registry check with the
unknown-command error, then the dispatch switch.  In the `exit` case the call `context.setHologramMode(false)` is a host side effect outside this
embedding; its result is modelled in full. -/
def executeCommand (env : ExtDeps) (parsed : ParsedCommand) : CommandResult :=
  let command := parsed.command
  if command == "" then { success := true, output := "", type := RType.info }
  else if !isValidCommand command then
    { success := false,
      output := "Unknown command: " ++ command ++ "\nType \"help\" for available commands.",
      type := RType.error }
  else if command == "help" then executeHelp parsed.args
  else if command == "draw" then executeDraw env.artLib parsed.args parsed.flags
  else if command == "upload" then executeUpload parsed.args
  else if command == "hologram" then executeHologram parsed.args
  else if command == "solve" then executeSolve env parsed.args
  else if command == "physics" then executePhysics env parsed.args
  else if command == "chemistry" then executeChemistry parsed.args
  else if command == "search" then executeSearch env parsed.args
  else if command == "clear" then
    { success := true, output := "", type := RType.info, clear := some true }
  else if command == "exit" then
    { success := true, output := "Exited 3D mode", type := RType.info }
  else if command == "about" then executeAbout
  else if command == "version" then
    { success := true, output := "ASCII Oracle v1.0.0", type := RType.info }
  else { success := false, output := "Command not implemented", type := RType.error }

/-! ## Terminal math evaluator (`evaluateMath` of the Terminal component)

The evaluator lower-cases the trimmed expression, rewrites the allowed
function/constant names to their `Math.*` forms, tests the result (with
the `Math.*` tokens removed) against the character allow-list
`[0-9+\-*/().Math,\s]`, and only then hands the rewritten string to the
dynamic evaluator.  The rewrite passes below implement exactly the JS
regex replaces, scanning left to right and restarting after each
replacement; the fuel argument (always instantiated with the input
length, an upper bound on the number of scan steps) only serves
termination. -/

/-- Rewrite pass for `name\(([^)]+)\)` → `Math.m($1)`. -/
def replaceFnAux (fname mname : List Char) : Nat → List Char → List Char
  | 0, l => l
  | _ + 1, [] => []
  | fuel + 1, c :: cs =>
    let pat := fname ++ ['(']
    if pat.isPrefixOf (c :: cs) then
      let afterPat := (c :: cs).drop pat.length
      let run := afterPat.takeWhile (fun x => x != ')')
      let rest := afterPat.drop run.length
      if !run.isEmpty && rest.head? == some ')' then
        ("Math.".data ++ mname ++ ['('] ++ run ++ [')']) ++
          replaceFnAux fname mname fuel (rest.drop 1)
      else c :: replaceFnAux fname mname fuel cs
    else c :: replaceFnAux fname mname fuel cs

/-- Rewrite every `name(...)` call (regex `name\(([^)]+)\)`) to
`Math.mname(...)`. -/
def replaceFn (fname mname : String) (l : List Char) : List Char :=
  replaceFnAux fname.data mname.data l.length l

/-- Rewrite pass for `pow\(([^,]+),([^)]+)\)` → `Math.pow($1,$2)`. -/
def replacePowAux : Nat → List Char → List Char
  | 0, l => l
  | _ + 1, [] => []
  | fuel + 1, c :: cs =>
    if "pow(".data.isPrefixOf (c :: cs) then
      let afterPat := (c :: cs).drop 4
      let runA := afterPat.takeWhile (fun x => x != ',')
      let restA := afterPat.drop runA.length
      if !runA.isEmpty && restA.head? == some ',' then
        let afterComma := restA.drop 1
        let runB := afterComma.takeWhile (fun x => x != ')')
        let restB := afterComma.drop runB.length
        if !runB.isEmpty && restB.head? == some ')' then
          ("Math.pow(".data ++ runA ++ [','] ++ runB ++ [')']) ++
            replacePowAux fuel (restB.drop 1)
        else c :: replacePowAux fuel cs
      else c :: replacePowAux fuel cs
    else c :: replacePowAux fuel cs

/-- Rewrite `pow(a,b)` to `Math.pow(a,b)`. -/
def replacePow (l : List Char) : List Char :=
  replacePowAux l.length l

/-- Plain global substring replacement (used for `pi` → `Math.PI`). -/
def replaceSubAux (pat repl : List Char) : Nat → List Char → List Char
  | 0, l => l
  | _ + 1, [] => []
  | fuel + 1, c :: cs =>
    if pat.isPrefixOf (c :: cs) then
      repl ++ replaceSubAux pat repl fuel ((c :: cs).drop pat.length)
    else c :: replaceSubAux pat repl fuel cs

/-- Global substring replacement. -/
def replaceSub (pat repl : String) (l : List Char) : List Char :=
  replaceSubAux pat.data repl.data l.length l

/-- Rewrite `e` (regex `e(?![a-z])`, a non-consuming lookahead) to
`Math.E`. -/
def replaceE : List Char → List Char
  | [] => []
  | c :: cs =>
    if c == 'e' && !(match cs.head? with | some d => d.isLower | none => false) then
      "Math.E".data ++ replaceE cs
    else c :: replaceE cs

/-- Rewrite `^` to `**`. -/
def replaceCaret : List Char → List Char
  | [] => []
  | c :: cs => (if c == '^' then "**".data else [c]) ++ replaceCaret cs

/-- The cleaning pipeline of `evaluateMath`, in source order. -/
def cleanMathExpr (expr : String) : String :=
  let s0 := (jsToLower (jsTrim expr)).data
  let s1 := replaceFn "sqrt" "sqrt" s0
  let s2 := replaceFn "sin" "sin" s1
  let s3 := replaceFn "cos" "cos" s2
  let s4 := replaceFn "tan" "tan" s3
  let s5 := replaceFn "log" "log10" s4
  let s6 := replaceFn "ln" "log" s5
  let s7 := replaceFn "abs" "abs" s6
  let s8 := replacePow s7
  let s9 := replaceSub "pi" "Math.PI" s8
  let s10 := replaceE s9
  String.mk (replaceCaret s10)

/-- Alternatives of the strip regex
`Math\.(sqrt|sin|cos|tan|log10|log|abs|pow|PI|E)`, in alternation
order (`log10` before `log`). -/
def mathStripAlts : List (List Char) :=
  ["sqrt".data, "sin".data, "cos".data, "tan".data, "log10".data, "log".data,
   "abs".data, "pow".data, "PI".data, "E".data]

/-- Worker removing every `Math.<alt>` token. -/
def stripMathAux : Nat → List Char → List Char
  | 0, l => l
  | _ + 1, [] => []
  | fuel + 1, c :: cs =>
    if "Math.".data.isPrefixOf (c :: cs) then
      let afterM := (c :: cs).drop 5
      match mathStripAlts.find? (fun a => a.isPrefixOf afterM) with
      | some a => stripMathAux fuel (afterM.drop a.length)
      | none => c :: stripMathAux fuel cs
    else c :: stripMathAux fuel cs

/-- Remove every recognised `Math.*` token before the allow-list test. -/
def stripMathTokens (s : String) : String :=
  String.mk (stripMathAux s.data.length s.data)

/-- The allow-list `[0-9+\-*/().Math,\s]` of `evaluateMath`: digits,
arithmetic operators, parentheses, dot, comma, whitespace, and the
individual letters of `Math`. -/
def allowedMathChar (c : Char) : Bool :=
  c.isDigit || c == '+' || c == '-' || c == '*' || c == '/' || c == '(' ||
  c == ')' || c == '.' || c == 'M' || c == 'a' || c == 't' || c == 'h' ||
  c == ',' || jsWsChar c

/-- The allow-list as the specification words it (for comparison with
the implemented `allowedMathChar`): after substitution the named
functions and constants have become `Math.*` tokens, which are
stripped, so the residue may per the spec contain only digits,
arithmetic operators, parentheses, a dot and whitespace.  The
implemented class is strictly wider: it additionally admits the bare
letters `M`, `a`, `t`, `h` and the comma. -/
def specAllowedChar (c : Char) : Bool :=
  c.isDigit || c == '+' || c == '-' || c == '*' || c == '/' || c == '(' ||
  c == ')' || c == '.' || jsWsChar c

/-- `evaluateMath` of the Terminal component, over the abstracted dynamic
evaluator `ev` (see module comment).  The rewritten expression is handed
to `ev` only when the stripped residue is non-empty and every character
is allow-listed; otherwise the verbatim string `"Invalid expression"` is
returned without consulting `ev`. -/
def evaluateMath (ev : String → Option String) (expr : String) : String :=
  let cleaned := cleanMathExpr expr
  let residue := stripMathTokens cleaned
  if residue != "" && residue.data.all allowedMathChar then
    match ev cleaned with
    | some s => s
    | none => "Error: Could not evaluate"
  else "Invalid expression"

/-- The `solve` case of the Terminal executor: usage screen when no
argument, otherwise the joined expression is evaluated by
`evaluateMath` and the result line is printed (`none` models the usage
screen, `some r` the printed result). -/
def terminalSolve (ev : String → Option String) (args : List String) : Option String :=
  match args with
  | [] => none
  | a :: _ =>
    if a == "" then none
    else some (evaluateMath ev (joinSep " " args))

/-! ## Terminal chemistry (`ELEMENTS`, `calcMolarMass`) -/

/-- Entry of the periodic table of the Terminal. -/
structure ElementInfo where
  name : String
  number : Nat
  mass : ℚ
  category : String
deriving DecidableEq, Repr

/-- The `ELEMENTS` table of the Terminal component (masses as exact
decimal rationals). -/
def ELEMENTS : List (String × ElementInfo) :=
  [("h", ⟨"Hydrogen", 1, 1.008, "Nonmetal"⟩),
   ("he", ⟨"Helium", 2, 4.003, "Noble Gas"⟩),
   ("li", ⟨"Lithium", 3, 6.941, "Alkali Metal"⟩),
   ("be", ⟨"Beryllium", 4, 9.012, "Alkaline Earth"⟩),
   ("b", ⟨"Boron", 5, 10.81, "Metalloid"⟩),
   ("c", ⟨"Carbon", 6, 12.011, "Nonmetal"⟩),
   ("n", ⟨"Nitrogen", 7, 14.007, "Nonmetal"⟩),
   ("o", ⟨"Oxygen", 8, 15.999, "Nonmetal"⟩),
   ("f", ⟨"Fluorine", 9, 18.998, "Halogen"⟩),
   ("ne", ⟨"Neon", 10, 20.18, "Noble Gas"⟩),
   ("na", ⟨"Sodium", 11, 22.99, "Alkali Metal"⟩),
   ("mg", ⟨"Magnesium", 12, 24.305, "Alkaline Earth"⟩),
   ("al", ⟨"Aluminum", 13, 26.982, "Post-transition"⟩),
   ("si", ⟨"Silicon", 14, 28.086, "Metalloid"⟩),
   ("p", ⟨"Phosphorus", 15, 30.974, "Nonmetal"⟩),
   ("s", ⟨"Sulfur", 16, 32.065, "Nonmetal"⟩),
   ("cl", ⟨"Chlorine", 17, 35.453, "Halogen"⟩),
   ("ar", ⟨"Argon", 18, 39.948, "Noble Gas"⟩),
   ("k", ⟨"Potassium", 19, 39.098, "Alkali Metal"⟩),
   ("ca", ⟨"Calcium", 20, 40.078, "Alkaline Earth"⟩),
   ("fe", ⟨"Iron", 26, 55.845, "Transition Metal"⟩),
   ("cu", ⟨"Copper", 29, 63.546, "Transition Metal"⟩),
   ("zn", ⟨"Zinc", 30, 65.38, "Transition Metal"⟩),
   ("ag", ⟨"Silver", 47, 107.868, "Transition Metal"⟩),
   ("au", ⟨"Gold", 79, 196.967, "Transition Metal"⟩),
   ("pb", ⟨"Lead", 82, 207.2, "Post-transition"⟩),
   ("u", ⟨"Uranium", 92, 238.029, "Actinide"⟩)]

/-- Lookup in the `ELEMENTS` table by (already lower-cased) symbol. -/
def elementLookup (sym : String) : Option ElementInfo :=
  (ELEMENTS.find? (fun p => p.1 == sym)).map Prod.snd

/-- JS `parseInt` on a non-empty digit string. -/
def parseIntDigits (ds : List Char) : Nat :=
  ds.foldl (fun acc d => acc * 10 + (d.toNat - 48)) 0

/-- The `regex.exec` loop of `calcMolarMass` over
`([A-Z][a-z]?)(\d*)`: skip characters until a capital letter, take an
optional lowercase letter and a digit run, emit the (lower-cased)
symbol with its count (default 1), and continue after the match.  The
fuel (instantiated with the input length, an upper bound on the scan
steps) only serves termination. -/
def molarScanAux : Nat → List Char → List (String × Nat)
  | 0, _ => []
  | _ + 1, [] => []
  | fuel + 1, c :: cs =>
    if c.isUpper then
      let lowPart := (cs.take 1).takeWhile Char.isLower
      let afterSym := cs.drop lowPart.length
      let digits := afterSym.takeWhile Char.isDigit
      let restL := afterSym.drop digits.length
      let symbol := jsToLower (String.mk (c :: lowPart))
      let count : Nat := if digits.isEmpty then 1 else parseIntDigits digits
      (symbol, count) :: molarScanAux fuel restL
    else molarScanAux fuel cs

/-- The element/count matches of the `calcMolarMass` regex scan. -/
def molarTokens (formula : String) : List (String × Nat) :=
  molarScanAux formula.data.length formula.data

/-- `calcMolarMass` of the Terminal component: the `mass += mass × count`
accumulation over the regex matches, left to right; a symbol missing
from `ELEMENTS` contributes nothing (the silent source guard `if
(ELEMENTS[symbol])` guard). -/
def calcMolarMass (formula : String) : ℚ :=
  (molarTokens formula).foldl
    (fun mass p =>
      match elementLookup p.1 with
      | some info => mass + info.mass * p.2
      | none => mass) 0

/-- Zero-padded three-digit fraction part. -/
def pad3 (n : Nat) : String :=
  if n < 10 then "00" ++ toString n
  else if n < 100 then "0" ++ toString n
  else toString n

/-- JS `Number.prototype.toFixed(3)` for the non-negative exact decimals
produced by `calcMolarMass` (round to the nearest thousandth, ties up). -/
def toFixed3 (q : ℚ) : String :=
  let scaled : Int := Rat.floor (q * 1000 + 1 / 2)
  toString (scaled / 1000) ++ "." ++ pad3 (scaled % 1000).toNat

/-- Outcome of the `chemistry` command of the Terminal (the written screen,
classified). -/
inductive ChemOut where
  | helpScreen
  | elementInfo (info : ElementInfo)
  | elementNotFound (sym : String)
  | molar (formula : String) (mass : ℚ)
  | molarParseError (formula : String)
  | invalid
deriving DecidableEq, Repr

/-- The `chemistry` case of the Terminal executor: help with no
arguments; `element <sym>` looks up the table; `molar <formula>` sums
`calcMolarMass` and reports `mass.toFixed(3) + " g/mol"` when the mass
is positive; anything else is the invalid-command error. -/
def terminalChemistry (args : List String) : ChemOut :=
  match args with
  | [] => ChemOut.helpScreen
  | a0 :: rest =>
    match rest with
    | a1 :: _ =>
      if jsToLower a0 == "element" && a1 != "" then
        match elementLookup (jsToLower a1) with
        | some info => ChemOut.elementInfo info
        | none => ChemOut.elementNotFound a1
      else if jsToLower a0 == "molar" && a1 != "" then
        let mass := calcMolarMass a1
        if 0 < mass then ChemOut.molar a1 mass else ChemOut.molarParseError a1
      else ChemOut.invalid
    | [] => ChemOut.invalid

/-! ## Terminal command splitting (`cmd.trim().split(/\s+/)`) -/

/-- Worker for `jsSplitWs`: split on runs of whitespace.  The fuel
(instantiated with the input length) only serves termination. -/
def splitWsAux : Nat → List Char → List Char → List (List Char)
  | 0, l, cur => [cur ++ l]
  | _ + 1, [], cur => [cur]
  | fuel + 1, c :: cs, cur =>
    if jsWsChar c then cur :: splitWsAux fuel (cs.dropWhile jsWsChar) []
    else splitWsAux fuel cs (cur ++ [c])

/-- JS `String.prototype.split(/\s+/)`. -/
def jsSplitWs (s : String) : List String :=
  (splitWsAux s.data.length s.data []).map String.mk

/-- The token list of the Terminal executor: `cmd.trim().split(/\s+/)` (its
first element is the command name, the rest the arguments). -/
def terminalParts (cmd : String) : List String :=
  jsSplitWs (jsTrim cmd)

/-! ## Statement-side classifiers and witness environment -/

/-- Classifies a token that `parseLoop` treats as a flag without an `=`
value: a `--` token whose remainder has no `=`, or a two-character `-x`
token.  Returns the flag name exactly as `parseLoop` computes it. -/
def flagNoEqTok (part : String) : Option String :=
  if jsStartsWith part "--" then
    let flagPart := jsDrop part 2
    if jsContainsChar flagPart '=' then none else some flagPart
  else if jsStartsWith part "-" && jsLength part == 2 then some (jsDrop part 1)
  else none

/-- A concrete environment with no reachable collaborators (backend
offline, empty art library), used to instantiate theorems. -/
def trivialDeps : ExtDeps :=
  { artLib := [],
    solveBackend := fun _ => none,
    jsEval := fun _ => none,
    searchApi := fun _ => none,
    projectileOut := fun _ _ => "",
    freefallOut := fun _ => "" }

/-! ## Helper lemmas -/

/-- Every token accumulated by the tokenizer loop is non-empty, because
tokens are only flushed from a non-empty buffer. -/
theorem tokenizeAux_ne_nil (l : List Char) :
    ∀ (inq : Bool) (qc : Option Char) (cur : List Char) (toks : List (List Char)),
    (∀ t ∈ toks, t ≠ []) → ∀ t ∈ tokenizeAux l inq qc cur toks, t ≠ [] := by
  induction l with
  | nil =>
    intro inq qc cur toks hinv t ht
    simp only [tokenizeAux] at ht
    by_cases hc : cur.isEmpty
    · rw [if_pos hc] at ht; exact hinv t ht
    · rw [if_neg hc] at ht
      rcases List.mem_append.mp ht with h | h
      · exact hinv t h
      · rcases List.mem_singleton.mp h with rfl
        intro hnil
        rw [hnil] at hc
        exact hc rfl
  | cons c rest ih =>
    intro inq qc cur toks hinv t ht
    simp only [tokenizeAux] at ht
    split at ht
    · exact ih _ _ _ _ hinv t ht
    · split at ht
      · exact ih _ _ _ _ hinv t ht
      · split at ht
        · split at ht
          · exact ih _ _ _ _ hinv t ht
          · rename_i hcur
            refine ih _ _ _ _ ?_ t ht
            intro u hu
            rcases List.mem_append.mp hu with h | h
            · exact hinv u h
            · rcases List.mem_singleton.mp h with rfl
              intro hnil
              rw [hnil] at hcur
              exact hcur rfl
        · exact ih _ _ _ _ hinv t ht

/-- Every token returned by `tokenize` is a non-empty string. -/
theorem tokenize_mem_ne_empty (s t : String) (ht : t ∈ tokenize s) : t ≠ "" := by
  rcases List.mem_map.mp ht with ⟨l, hl, rfl⟩
  have hne : l ≠ [] := tokenizeAux_ne_nil _ _ _ _ _ (by intro u hu; cases hu) l hl
  intro hcontra
  exact hne (by simpa using congrArg String.data hcontra)

/-- Lower-casing preserves non-emptiness. -/
theorem jsToLower_ne_empty (s : String) (h : s ≠ "") : jsToLower s ≠ "" := by
  intro hc
  apply h
  have hdata : s.data.map Char.toLower = [] := by
    simpa [jsToLower] using congrArg String.data hc
  have hnil : s.data = [] := List.map_eq_nil_iff.mp hdata
  exact String.ext hnil

/-- Data of a string append. -/
theorem string_data_append (a b : String) : (a ++ b).data = a.data ++ b.data := rfl

/-- Splitting a list whose first separator occurrence follows the
separator-free run `xs`. -/
theorem splitCharAux_append (sep : Char) (ys : List Char) :
    ∀ (xs acc : List Char), xs.all (fun c => !(c == sep)) = true →
    splitCharAux sep (xs ++ sep :: ys) acc = (acc ++ xs) :: splitCharAux sep ys [] := by
  intro xs
  induction xs with
  | nil =>
    intro acc _
    simp [splitCharAux]
  | cons x xs ih =>
    intro acc hall
    simp only [List.all_cons, Bool.and_eq_true] at hall
    obtain ⟨hx, hxs⟩ := hall
    have hxf : (x == sep) = false := by simpa using hx
    simp only [List.cons_append, splitCharAux, hxf, Bool.false_eq_true, if_false,
      List.append_eq]
    rw [ih (acc ++ [x]) hxs]
    simp

/-- The head segment of a split is the run before the first separator. -/
theorem splitCharAux_head (sep : Char) :
    ∀ (l acc : List Char), ∃ r, splitCharAux sep l acc =
      (acc ++ l.takeWhile (fun c => !(c == sep))) :: r := by
  intro l
  induction l with
  | nil => intro acc; exact ⟨[], by simp [splitCharAux]⟩
  | cons c cs ih =>
    intro acc
    by_cases hc : (c == sep) = true
    · refine ⟨splitCharAux sep cs [], ?_⟩
      simp [splitCharAux, hc, List.takeWhile_cons]
    · have hcf : (c == sep) = false := by simpa using hc
      obtain ⟨r, hr⟩ := ih (acc ++ [c])
      refine ⟨r, ?_⟩
      simp only [splitCharAux, hcf, List.takeWhile_cons, hcf]
      simp only [Bool.not_false, if_true]
      rw [hr]
      simp

/-! ## Claim theorems -/

/-- C1: for every `ParsedCommand` whose `command` is non-empty and not
accepted by the registry test `isValidCommand`, `executeCommand` returns
(totally, in any environment) a result with `success = false`, error
kind, and an output that is the literal text `Unknown command: `
followed by the command name (and a fixed hint suffix). -/
theorem executeCommand_unknown_command (env : ExtDeps) (p : ParsedCommand)
    (h1 : p.command ≠ "") (h2 : isValidCommand p.command = false) :
    (executeCommand env p).success = false ∧
    (executeCommand env p).type = RType.error ∧
    ∃ restText, (executeCommand env p).output =
      "Unknown command: " ++ p.command ++ restText := by
  have hb : (p.command == "") = false := by simpa using h1
  simp only [executeCommand, hb, h2, Bool.false_eq_true, if_false, Bool.not_false, if_true]
  exact ⟨trivial, trivial, ⟨"\nType \"help\" for available commands.", rfl⟩⟩

/-- Witness for C1 at the parsed input `foobar` in the offline
environment. -/
theorem executeCommand_unknown_command_witness :
    (executeCommand trivialDeps (parseCommand "foobar")).success = false ∧
    (executeCommand trivialDeps (parseCommand "foobar")).type = RType.error ∧
    ∃ restText, (executeCommand trivialDeps (parseCommand "foobar")).output =
      "Unknown command: " ++ (parseCommand "foobar").command ++ restText :=
  executeCommand_unknown_command trivialDeps (parseCommand "foobar") (by decide) (by decide)

/-- C2 counterexample: at input `help` the claimed equivalence fails —
the command is non-empty although `args` and `flags` are both empty, so
`command = "" ↔ (args = [] ∧ flags = {})` does not hold for every
input. -/
theorem parseCommand_empty_iff_cex :
    ¬ (((parseCommand "help").command = "") ↔
       ((parseCommand "help").args = [] ∧ (parseCommand "help").flags = [])) := by
  decide

/-- C2 (amended): only the forward direction holds — if `command` is
empty then `args` and `flags` are empty; and every whitespace-only
input parses to the fully empty `ParsedCommand` (whose `raw` is the
trimmed, hence empty, string). -/
theorem parseCommand_blank_input (s : String) :
    ((parseCommand s).command = "" → (parseCommand s).args = [] ∧ (parseCommand s).flags = []) ∧
    (s.data.all jsWsChar = true →
      parseCommand s = { command := "", args := [], flags := [], raw := "" }) := by
  constructor
  · intro hcmd
    rcases htok : tokenize (jsTrim s) with _ | ⟨first, restParts⟩
    · simp [parseCommand, htok]
    · exfalso
      have hfirst : first ≠ "" :=
        tokenize_mem_ne_empty (jsTrim s) first (by rw [htok]; exact List.mem_cons_self _ _)
      have hcommand : (parseCommand s).command = jsToLower first := by
        simp [parseCommand, htok]
      rw [hcommand] at hcmd
      exact jsToLower_ne_empty first hfirst hcmd
  · intro hws
    have htrim : jsTrim s = "" := by
      have h1 : s.data.dropWhile jsWsChar = [] := by
        rw [List.dropWhile_eq_nil_iff]
        intro x hx
        exact List.all_eq_true.mp hws x hx
      simp [jsTrim, h1]
    simp [parseCommand, htrim]
    rfl

/-- Witness for C2 (amended) at the whitespace-only input. -/
theorem parseCommand_blank_input_witness :
    parseCommand "   " = { command := "", args := [], flags := [], raw := "" } :=
  (parseCommand_blank_input "   ").2 (by decide)

/-- C3 counterexample: for `--a=b=c` the stored value is `b`, the
segment up to the next `=`, not the full remainder `b=c` the claim
asserts. -/
theorem parseCommand_eq_value_cex :
    recordGet (parseCommand "draw --a=b=c").flags "a" = some (FlagVal.str "b") ∧
    recordGet (parseCommand "draw --a=b=c").flags "a" ≠ some (FlagVal.str "b=c") := by
  decide

/-- C3 (amended): for a long-flag token `--<a>=<b>` (with `a` free of
`=`), the flag name is the substring before the first `=`, and the
stored value is the part of `b` up to the next `=` (the whole of `b`
only when `b` has no further `=`) — JS `split('=')` splits at every
`=` and the destructuring keeps only the first two segments. -/
theorem parseLoop_eq_flag_first_segment (a b : String) (rest args : List String)
    (flags : List (String × FlagVal))
    (ha : a.data.all (fun c => !(c == '=')) = true) :
    parseLoop (("--" ++ a ++ "=" ++ b) :: rest) args flags =
      parseLoop rest args
        (flags ++ [(a, FlagVal.str (String.mk (b.data.takeWhile (fun c => !(c == '=')))))]) := by
  have hdata : ("--" ++ a ++ "=" ++ b).data = '-' :: '-' :: (a.data ++ '=' :: b.data) := by
    simp [string_data_append]
  have h1 : jsStartsWith ("--" ++ a ++ "=" ++ b) "--" = true := by
    simp [jsStartsWith, hdata, List.isPrefixOf]
  have hdrop : jsDrop ("--" ++ a ++ "=" ++ b) 2 = String.mk (a.data ++ '=' :: b.data) := by
    simp [jsDrop, hdata]
  have h2 : jsContainsChar (String.mk (a.data ++ '=' :: b.data)) '=' = true := by
    simp [jsContainsChar, List.contains]
  have hsplit : splitCharAux '=' (a.data ++ '=' :: b.data) [] =
      a.data :: splitCharAux '=' b.data [] := by
    simpa using splitCharAux_append '=' b.data a.data [] ha
  obtain ⟨r, hr⟩ := splitCharAux_head '=' b.data []
  have heta : String.mk a.data = a := rfl
  conv_lhs => rw [parseLoop.eq_def]
  simp only []
  rw [h1]
  simp only [if_true, hdrop, h2, jsSplitChar]
  rw [hsplit, hr]
  simp [List.getD, heta]

/-- Witness for C3 (amended) at the token `--a=b=c`. -/
theorem parseLoop_eq_flag_first_segment_witness :
    parseLoop (("--" ++ "a" ++ "=" ++ "b=c") :: []) [] [] =
      parseLoop [] []
        ([] ++ [("a", FlagVal.str (String.mk ("b=c".data.takeWhile (fun c => !(c == '=')))))]) :=
  parseLoop_eq_flag_first_segment "a" "b=c" [] [] [] (by decide)

/-- C4: a flag token without `=` (a long `--name` or a two-character
`-x`) absorbs the next token as its string value exactly when that
token exists and does not start with `-` (and the absorbed token is
skipped, not pushed to `args`); otherwise the flag is stored as the
boolean `true`. -/
theorem parseLoop_flag_absorption (part name : String) (h : flagNoEqTok part = some name) :
    (∀ (next : String) (rest args : List String) (flags : List (String × FlagVal)),
      jsStartsWith next "-" = false →
      parseLoop (part :: next :: rest) args flags =
        parseLoop rest args (flags ++ [(name, FlagVal.str next)])) ∧
    (∀ (next : String) (rest args : List String) (flags : List (String × FlagVal)),
      jsStartsWith next "-" = true →
      parseLoop (part :: next :: rest) args flags =
        parseLoop (next :: rest) args (flags ++ [(name, FlagVal.boolTrue)])) ∧
    (∀ (args : List String) (flags : List (String × FlagVal)),
      parseLoop [part] args flags = (args, flags ++ [(name, FlagVal.boolTrue)])) := by
  by_cases hlong : jsStartsWith part "--" = true
  · have heq : jsContainsChar (jsDrop part 2) '=' = false := by
      by_contra hc
      have hc' : jsContainsChar (jsDrop part 2) '=' = true := by
        cases hx : jsContainsChar (jsDrop part 2) '='
        · exact absurd hx hc
        · rfl
      simp [flagNoEqTok, hlong, hc'] at h
    have hname : name = jsDrop part 2 := by
      simp [flagNoEqTok, hlong, heq] at h
      exact h.symm
    subst hname
    refine ⟨?_, ?_, ?_⟩
    · intro next rest args flags hnext
      conv_lhs => rw [parseLoop.eq_def]
      simp only []
      rw [hlong]
      simp only [if_true, heq, Bool.false_eq_true, if_false]
      rw [hnext]
      simp
    · intro next rest args flags hnext
      conv_lhs => rw [parseLoop.eq_def]
      simp only []
      rw [hlong]
      simp only [if_true, heq, Bool.false_eq_true, if_false]
      rw [hnext]
      simp
    · intro args flags
      conv_lhs => rw [parseLoop.eq_def]
      simp only []
      rw [hlong]
      simp only [if_true, heq, Bool.false_eq_true, if_false]
      rw [parseLoop]
  · have hlong' : jsStartsWith part "--" = false := by
      cases hx : jsStartsWith part "--"
      · rfl
      · exact absurd hx hlong
    have hshort : (jsStartsWith part "-" && jsLength part == 2) = true := by
      by_contra hc
      have hc' : (jsStartsWith part "-" && jsLength part == 2) = false := by
        cases hx : (jsStartsWith part "-" && jsLength part == 2)
        · rfl
        · exact absurd hx hc
      simp [flagNoEqTok, hlong', hc'] at h
    have hname : name = jsDrop part 1 := by
      simp [flagNoEqTok, hlong', hshort] at h
      exact h.symm
    subst hname
    refine ⟨?_, ?_, ?_⟩
    · intro next rest args flags hnext
      conv_lhs => rw [parseLoop.eq_def]
      simp only []
      rw [hlong']
      simp only [Bool.false_eq_true, if_false]
      rw [hshort]
      simp only [if_true]
      rw [hnext]
      simp
    · intro next rest args flags hnext
      conv_lhs => rw [parseLoop.eq_def]
      simp only []
      rw [hlong']
      simp only [Bool.false_eq_true, if_false]
      rw [hshort]
      simp only [if_true]
      rw [hnext]
      simp
    · intro args flags
      conv_lhs => rw [parseLoop.eq_def]
      simp only []
      rw [hlong']
      simp only [Bool.false_eq_true, if_false]
      rw [hshort]
      simp only [if_true]
      rw [parseLoop]

/-- Witness for C4: `-w` absorbs `80` as its value. -/
theorem parseLoop_flag_absorption_witness :
    parseLoop ["-w", "80"] [] [] = parseLoop [] [] ([] ++ [("w", FlagVal.str "80")]) :=
  (parseLoop_flag_absorption "-w" "w" (by decide)).1 "80" [] [] [] (by decide)

/-- C5: a token after the first that starts with `-` but neither starts
with `--` nor has length exactly two is appended to `args` as a
positional argument. -/
theorem parseLoop_single_dash_positional (part : String) (rest args : List String)
    (flags : List (String × FlagVal))
    (h1 : jsStartsWith part "-" = true) (h2 : jsStartsWith part "--" = false)
    (h3 : jsLength part ≠ 2) :
    parseLoop (part :: rest) args flags = parseLoop rest (args ++ [part]) flags := by
  conv_lhs => rw [parseLoop.eq_def]
  simp only []
  rw [h2]
  simp only [Bool.false_eq_true, if_false]
  have hlen : (jsLength part == 2) = false := by simpa using h3
  rw [h1, hlen]
  simp

/-- Witness for C5 at the token `-width`. -/
theorem parseLoop_single_dash_positional_witness :
    parseLoop ["-width"] [] [] = parseLoop [] ([] ++ ["-width"]) [] :=
  parseLoop_single_dash_positional "-width" [] [] [] (by decide) (by decide) (by decide)

/-- C6: once a quote is open and the remaining input never closes it,
the tokenizer loop finishes normally and the whole remainder (spaces
and all) is appended verbatim to the current token, which is flushed if
non-empty; in particular `tokenize "say \"hello"` yields
`["say", "hello"]`. -/
theorem tokenize_unterminated_quote :
    (∀ (rest : List Char) (q : Char) (cur : List Char) (toks : List (List Char)),
      (q = dquoteChar ∨ q = squoteChar) →
      rest.all (fun c => !(c == q)) = true →
      tokenizeAux rest true (some q) cur toks =
        if (cur ++ rest).isEmpty then toks else toks ++ [cur ++ rest]) ∧
    tokenize "say \"hello" = ["say", "hello"] := by
  constructor
  · intro rest
    induction rest with
    | nil => intro q cur toks _ _; simp [tokenizeAux]
    | cons c rs ih =>
      intro q cur toks hq hall
      simp only [List.all_cons, Bool.and_eq_true] at hall
      obtain ⟨hcq, hrest⟩ := hall
      simp only [tokenizeAux]
      rw [if_neg, if_neg, if_neg]
      · rw [ih q (cur ++ [c]) toks hq hrest]
        simp [List.append_assoc]
      · simp
      · simp only [Bool.and_eq_true]
        intro hcon
        have hqc : q = c := by simpa using hcon.1
        have hbeq : (c == q) = true := beq_iff_eq.mpr hqc.symm
        simp [hbeq] at hcq
      · simp
  · decide

/-- Witness for C6 at the state reached after the opening quote of
`say "hello`. -/
theorem tokenize_unterminated_quote_witness :
    tokenizeAux "hello".data true (some dquoteChar) [] ["say".data] =
      if (([] ++ "hello".data).isEmpty) then ["say".data]
      else ["say".data] ++ [[] ++ "hello".data] :=
  tokenize_unterminated_quote.1 "hello".data dquoteChar [] ["say".data]
    (Or.inl rfl) (by decide)

/-- C7 counterexample: with the type argument missing, `executeUpload`
succeeds (defaulting to an image upload) instead of returning the
usage error the claim asserts. -/
theorem executeUpload_missing_type_cex :
    (executeUpload []).success = true ∧
    (executeUpload []).triggerUpload = some UploadType.image := by
  decide

/-- C7 (amended): a missing (or empty) type argument defaults to
`image` and succeeds with `triggerUpload = image` (the `args[0] ||
"image"` default); a present argument that is neither `image` nor
`video` yields the usage error; `image` or `video` yields a success
whose `triggerUpload` is that type. -/
theorem executeUpload_behavior (args : List String) :
    ((args.head? = none ∨ args.head? = some "") →
      executeUpload args = { success := true,
                             output := "Opening image picker... Select a file to convert to ASCII.",
                             type := RType.info,
                             triggerUpload := some UploadType.image }) ∧
    (∀ a, args.head? = some a → a ≠ "" → a ≠ "image" → a ≠ "video" →
      executeUpload args = { success := false,
                             output := "Usage: upload image\n       upload video",
                             type := RType.error }) ∧
    (∀ a, args.head? = some a → (a = "image" ∨ a = "video") →
      executeUpload args = { success := true,
                             output := "Opening " ++ a ++ " picker... Select a file to convert to ASCII.",
                             type := RType.info,
                             triggerUpload := some (if a == "image" then UploadType.image else UploadType.video) }) := by
  cases args with
  | nil =>
    refine ⟨fun _ => by decide, ?_, ?_⟩
    · intro a ha
      simp at ha
    · intro a ha
      simp at ha
  | cons a0 rest =>
    refine ⟨?_, ?_, ?_⟩
    · intro h
      have ha : a0 = "" := by
        rcases h with h | h
        · simp at h
        · simpa using h
      subst ha
      rfl
    · intro a ha hne h1 h2
      have heq : a0 = a := by simpa using ha
      subst heq
      have hbe : (a0 == "") = false := by simpa using hne
      have hb1 : (a0 != "image") = true := by simpa using h1
      have hb2 : (a0 != "video") = true := by simpa using h2
      simp [executeUpload, hbe, hb1, hb2]
    · intro a ha hor
      have heq : a0 = a := by simpa using ha
      subst heq
      rcases hor with h | h <;> subst h <;> rfl

/-- Witness for C7 (amended) at `upload video`. -/
theorem executeUpload_behavior_witness :
    executeUpload ["video"] = { success := true,
                                output := "Opening " ++ "video" ++ " picker... Select a file to convert to ASCII.",
                                type := RType.info,
                                triggerUpload := some (if "video" == "image" then UploadType.image else UploadType.video) } :=
  (executeUpload_behavior ["video"]).2.2 "video" rfl (Or.inr rfl)

/-- C8 counterexample: the implemented character class is strictly
wider than the allow-list the claim enumerates.  The expression `ath`
keeps, after substitution and `Math.*` stripping, the bare letters
`a`, `t`, `h` — all outside the claimed allow-list of digits,
arithmetic operators and parentheses — yet the evaluator is consulted
and its answer returned instead of the claimed rejection. -/
theorem evaluateMath_claim_gap_cex :
    (stripMathTokens (cleanMathExpr "ath")).data.all specAllowedChar = false ∧
    evaluateMath (fun _ => some "999") "ath" = "999" ∧
    evaluateMath (fun _ => some "999") "ath" ≠ "Invalid expression" := by
  decide

/-- C8 (amended): the rejection holds for the allow-list the code
implements, the character class `[0-9+\-*/().Math,\s]`: whenever the
substituted expression still contains a character outside that class
after the `Math.*` tokens are removed, the restricted evaluator
returns `Invalid expression` for every possible dynamic evaluator — it
never evaluates any part of the expression.  (On the gap between the
two lists — bare `M`/`a`/`t`/`h` letters and commas — the expression
is instead handed to the evaluator, see the counterexample.)  The
Terminal command `solve DROP TABLE` prints an evaluation error, and no
crash is possible (the model is total). -/
theorem evaluateMath_rejects_disallowed :
    (∀ (ev : String → Option String) (expr : String),
      (stripMathTokens (cleanMathExpr expr)).data.all allowedMathChar = false →
      evaluateMath ev expr = "Invalid expression") ∧
    terminalParts "solve DROP TABLE" = ["solve", "DROP", "TABLE"] ∧
    (∀ ev : String → Option String,
      terminalSolve ev ["DROP", "TABLE"] = some "Invalid expression") := by
  have hmain : ∀ (ev : String → Option String) (expr : String),
      (stripMathTokens (cleanMathExpr expr)).data.all allowedMathChar = false →
      evaluateMath ev expr = "Invalid expression" := by
    intro ev expr h
    simp only [evaluateMath, h, Bool.and_false, Bool.false_eq_true, if_false]
  refine ⟨hmain, by decide, fun ev => ?_⟩
  have hstep : terminalSolve ev ["DROP", "TABLE"] = some (evaluateMath ev "DROP TABLE") := rfl
  rw [hstep, hmain ev "DROP TABLE" (by decide)]

/-- Witness for C8 at `DROP TABLE` with an evaluator that would answer
`999` if it were ever consulted. -/
theorem evaluateMath_rejects_disallowed_witness :
    evaluateMath (fun _ => some "999") "DROP TABLE" = "Invalid expression" :=
  evaluateMath_rejects_disallowed.1 (fun _ => some "999") "DROP TABLE" (by decide)

/-- The molar mass of water in the model is the exact rational 18.015. -/
theorem calcMolarMass_H2O : calcMolarMass "H2O" = 18.015 := by
  have ht : molarTokens "H2O" = [("h", 2), ("o", 1)] := by decide
  rw [calcMolarMass, ht]
  simp only [List.foldl]
  rw [show elementLookup "h" = some ⟨"Hydrogen", 1, 1.008, "Nonmetal"⟩ from rfl,
      show elementLookup "o" = some ⟨"Oxygen", 8, 15.999, "Nonmetal"⟩ from rfl]
  norm_num

/-- The molar branch succeeds for `H2O` (positive mass). -/
theorem terminalChemistry_molar_step :
    terminalChemistry ["molar", "H2O"] = ChemOut.molar "H2O" (calcMolarMass "H2O") := by
  have h : (0 : ℚ) < calcMolarMass "H2O" := by rw [calcMolarMass_H2O]; norm_num
  rw [terminalChemistry]
  rw [if_neg (by decide), if_pos (by decide)]
  simp only [if_pos h]

/-- The reported fixed-point rendering of the mass of water. -/
theorem toFixed3_H2O : toFixed3 (calcMolarMass "H2O") = "18.015" := by
  rw [calcMolarMass_H2O, toFixed3]
  have hq : (18.015 : ℚ) * 1000 + 1 / 2 = 36031 / 2 := by norm_num
  rw [hq]
  have hfl : Rat.floor (36031 / 2 : ℚ) = 18015 := by
    have h1 : (18015 : Int) ≤ Rat.floor (36031 / 2 : ℚ) := Rat.le_floor.mpr (by norm_num)
    have h2 : ¬ ((18016 : Int) ≤ Rat.floor (36031 / 2 : ℚ)) := by
      intro hc
      have := Rat.le_floor.mp hc
      norm_num at this
    omega
  rw [hfl]
  decide

/-- C9: the Terminal command `chemistry molar H2O` splits into the
`molar H2O` arguments, takes the success branch, and reports the molar
mass computed by the element+count regex scan as
2 × 1.008 + 1 × 15.999 = 18.015, rendered as `18.015`. -/
theorem terminalChemistry_molar_H2O :
    terminalParts "chemistry molar H2O" = ["chemistry", "molar", "H2O"] ∧
    terminalChemistry ["molar", "H2O"] = ChemOut.molar "H2O" (calcMolarMass "H2O") ∧
    molarTokens "H2O" = [("h", 2), ("o", 1)] ∧
    calcMolarMass "H2O" = 2 * 1.008 + 1 * 15.999 ∧
    calcMolarMass "H2O" = 18.015 ∧
    toFixed3 (calcMolarMass "H2O") = "18.015" := by
  refine ⟨by decide, terminalChemistry_molar_step, by decide, ?_, calcMolarMass_H2O, toFixed3_H2O⟩
  rw [calcMolarMass_H2O]
  norm_num

/-- C10: every token produced by `tokenize` is a non-empty string, so an
explicitly quoted empty string contributes no token at all: `draw "" x`
tokenizes to `["draw", "x"]`. -/
theorem tokenize_tokens_nonempty :
    (∀ (s t : String), t ∈ tokenize s → t ≠ "") ∧
    tokenize "draw \"\" x" = ["draw", "x"] :=
  ⟨tokenize_mem_ne_empty, by decide⟩

/-- Witness for C10 at the first token of `draw "" x`. -/
theorem tokenize_tokens_nonempty_witness : ("draw" : String) ≠ "" :=
  tokenize_tokens_nonempty.1 "draw \"\" x" "draw" (by decide)

/-! ## Sanity examples (spec §8 round-trips) -/

/-- Quoted tokens keep embedded spaces and drop the quote marks. -/
theorem tokenize_roundtrip_example :
    tokenize "draw \"my cat\" --width=10" = ["draw", "my cat", "--width=10"] := by
  decide

/-- Short-flag absorption at the `parseCommand` level. -/
theorem parseCommand_short_flag_example :
    parseCommand "cmd -w 80" =
      { command := "cmd", args := [], flags := [("w", FlagVal.str "80")], raw := "cmd -w 80" } := by
  decide

/-- A following flag is not absorbed as a value. -/
theorem parseCommand_short_flag_next_flag_example :
    parseCommand "cmd -w --other" =
      { command := "cmd", args := [],
        flags := [("w", FlagVal.boolTrue), ("other", FlagVal.boolTrue)],
        raw := "cmd -w --other" } := by
  decide

/-- The allow path of the restricted evaluator does consult the dynamic
evaluator (the guard is not vacuous). -/
theorem evaluateMath_allows_arithmetic :
    evaluateMath (fun _ => some "4") "2+2" = "4" := by decide

/-- The unused executor module has no `molar` sub-command: it reports an
invalid chemistry command there. -/
theorem executeChemistry_no_molar :
    executeChemistry ["molar", "H2O"] =
      { success := false,
        output := "Invalid chemistry command. Type \"chemistry\" for help.",
        type := RType.error } := by
  decide
